import Mathlib

/-!
Verification of the accept/dispatch engine of `folly::AsyncServerSocket`
(src/folly/io/async/AsyncServerSocket.cpp) against its natural-language
specification.  The C++ code is shallowly embedded: each relevant member
function becomes a Lean function over an explicit state; times are integer
millisecond counts, the floating-point accept rate is modelled over `ℚ`.
-/

/- ------------------------------------------------------------------
   Round-robin cursor fix-up in `removeAcceptCallback`
   (AsyncServerSocket.cpp lines 744-763).

   The C++ erases element `n` from `callbacks_` (size `s` before the
   erase) and then adjusts `callbackIndex_` (the round-robin cursor):

     if (n < callbackIndex_) { --callbackIndex_; }
     else { if (callbackIndex_ >= callbacks_.size()) callbackIndex_ = 0; }

   where `callbacks_.size()` is the size AFTER the erase, i.e. `s - 1`.
   ------------------------------------------------------------------ -/

/-- Cursor value after `removeAcceptCallback` erases index `n` from a
table of size `s` while the cursor stood at `c`. -/
def removeFixCursor (s c n : ℕ) : ℕ :=
  if n < c then c - 1
  else if s - 1 ≤ c then 0
  else c

/- ------------------------------------------------------------------
   `NewConnMessage::operator()` (AsyncServerSocket.cpp lines 81-103),
   executed by the RemoteAcceptor's notification-queue consumer.
   Time points are integer milliseconds on the steady clock.
   ------------------------------------------------------------------ -/

/-- The task status returned by a notification-queue message. -/
inductive TaskStatus where
  | CONSUMED
  | DISCARD
deriving DecidableEq, Repr

/-- A Connection message as enqueued by `dispatchSocket`: the accepted
descriptor, the deadline (0 when no queue timeout is configured) and the
enqueue time, both in ms. -/
structure NewConnMessage where
  fd : ℕ
  deadline : ℤ
  timeBeforeEnqueue : ℤ
deriving DecidableEq, Repr

/-- Observable outcome of executing a Connection message at time `now`. -/
structure NewConnRunResult where
  status : TaskStatus
  closedFd : Option ℕ
  /-- `some d` when the observer's `onConnectionDropped` ran with a reason
  string embedding the duration `d` (in ms); `none` otherwise. -/
  droppedReasonMs : Option ℤ
  dequeuedObserved : Bool
  connectionAccepted : Bool
deriving DecidableEq, Repr

/-- Modelled from the spec: `NewConnMessage::isExpired` is declared in
AsyncServerSocket.h, which is not part of the staged sources; the spec
states a message is expired when "deadline is nonzero and `now > deadline`". -/
def NewConnMessage.isExpired (m : NewConnMessage) (now : ℤ) : Bool :=
  m.deadline ≠ 0 ∧ m.deadline < now

/-- Execution of `NewConnMessage::operator()` at time `now`: if expired,
close the fd, report the drop to the observer (when present) with
`duration_cast<milliseconds>(deadline - timeBeforeEnqueue)` in the reason
string, and return DISCARD; otherwise report the dequeue and deliver the
connection to the callback. -/
def runNewConnMessage (m : NewConnMessage) (now : ℤ) (hasObserver : Bool) :
    NewConnRunResult :=
  if m.isExpired now then
    { status := .DISCARD
      closedFd := some m.fd
      droppedReasonMs :=
        if hasObserver then some (m.deadline - m.timeBeforeEnqueue) else none
      dequeuedObserved := false
      connectionAccepted := false }
  else
    { status := .CONSUMED
      closedFd := none
      droppedReasonMs := none
      dequeuedObserved := hasObserver
      connectionAccepted := true }

/- ------------------------------------------------------------------
   One iteration of the accept loop `handlerReady`
   (AsyncServerSocket.cpp lines 1005-1157).

   The code order inside the per-wake loop is:
     1. accept(4) produces either a client socket or an errno;
     2. if a socket was produced and an observer is installed,
        `onConnectionAccepted` fires;
     3. (TOS reflection, irrelevant here);
     4. `timeSinceLastAccept = max(0, now - lastAccepTimestamp_)`;
        `lastAccepTimestamp_ = now` — unconditionally;
     5. if `acceptRate_ < 1`: multiply the rate, clamp at 1, otherwise
        draw `rand()` and on `rand() > acceptRate_ * RAND_MAX` increment
        `numDroppedConnections_`, close the socket if one exists, and
        `continue` the loop — all BEFORE the failed-accept check;
     6. only then: invalid socket → EAGAIN returns, EMFILE/ENFILE enters
        backoff + dispatchError, other errnos dispatchError; all error
        paths notify the observer and return;
     7. otherwise `dispatchSocket`.
   ------------------------------------------------------------------ -/

/-- RateLimiter portion of the listener state (`acceptRate_`,
`acceptRateAdjustSpeed_`, `lastAccepTimestamp_`, `numDroppedConnections_`). -/
structure RLState where
  rate : ℚ
  speed : ℚ
  lastAccept : ℤ
  dropped : ℕ
deriving DecidableEq, Repr

/-- Result of the `accept` call at the top of an iteration. -/
inductive AcceptResult where
  | ok (fd : ℕ)
  | err (e : ℕ)
deriving DecidableEq, Repr

/-- Externally observable calls made during one `handlerReady` iteration. -/
inductive HREvent where
  | obsAccepted (fd : ℕ)
  | closed (fd : ℕ)
  | obsDropped (fd : ℕ)
  | dispatchErrorCall (e : ℕ)
  | obsAcceptError (e : ℕ)
  | enterBackoffCall
  | dispatchSocketCall (fd : ℕ)
deriving DecidableEq, Repr

/-- How one iteration of the `handlerReady` loop ends. -/
inductive HRAction where
  | continueLoop
  | returnNow
  | dispatched
deriving DecidableEq, Repr

/-- State, control action and emitted calls of one iteration. -/
structure HRIterResult where
  st : RLState
  action : HRAction
  events : List HREvent
deriving DecidableEq, Repr

def EAGAIN : ℕ := 11
def ENFILE : ℕ := 23
def EMFILE : ℕ := 24

/-- The local `timeSinceLastAccept` of `handlerReady`:
`max<int64_t>(0, now - lastAccepTimestamp_)`. -/
def timeSinceLastAccept (now last : ℤ) : ℤ := max 0 (now - last)

/-- The part of a `handlerReady` iteration following the rate-limiter
block: the `clientSocket == NetworkSocket()` errno handling, else
`dispatchSocket` (AsyncServerSocket.cpp lines 1108-1150). -/
def handlerReadyTail (st : RLState) (res : AcceptResult)
    (ev0 : List HREvent) (hasObserver : Bool) : HRIterResult :=
  match res with
  | .err e =>
      if e = EAGAIN then { st := st, action := .returnNow, events := ev0 }
      else
        { st := st
          action := .returnNow
          events :=
            ev0 ++ (if e = EMFILE ∨ e = ENFILE then [HREvent.enterBackoffCall] else []) ++
              [HREvent.dispatchErrorCall e] ++
              (if hasObserver then [HREvent.obsAcceptError e] else []) }
  | .ok fd =>
      { st := st, action := .dispatched, events := ev0 ++ [.dispatchSocketCall fd] }

/-- One iteration of the `handlerReady` accept loop, from the `accept`
result to the control action, following the source order: observer
notification, unconditional timestamp update, rate-limiter block (with
probabilistic drop and `continue`), then the failed-accept handling. -/
def handlerReadyIter (st : RLState) (res : AcceptResult) (now : ℤ)
    (draw rmax : ℤ) (hasObserver : Bool) : HRIterResult :=
  let ev0 : List HREvent :=
    match res with
    | .ok fd => if hasObserver then [.obsAccepted fd] else []
    | .err _ => []
  let dt : ℤ := timeSinceLastAccept now st.lastAccept
  let st1 := { st with lastAccept := now }
  if st1.rate < 1 then
    let r := st1.rate * (1 + st1.speed * (dt : ℚ))
    if 1 ≤ r then
      handlerReadyTail { st1 with rate := 1 } res ev0 hasObserver
    else if (draw : ℚ) > r * (rmax : ℚ) then
      { st := { st1 with rate := r, dropped := st1.dropped + 1 }
        action := .continueLoop
        events :=
          ev0 ++ (match res with
            | .ok fd => .closed fd :: (if hasObserver then [.obsDropped fd] else [])
            | .err _ => []) }
    else
      handlerReadyTail { st1 with rate := r } res ev0 hasObserver
  else
    handlerReadyTail st1 res ev0 hasObserver

/-- Whether a successful accept at time `now` is admitted (dispatched) by
the rate-limiter block rather than probabilistically rejected. -/
def rateAdmits (rate speed : ℚ) (lastAccept now : ℤ) (draw rmax : ℤ) : Bool :=
  (handlerReadyIter ⟨rate, speed, lastAccept, 0⟩ (.ok 0) now draw rmax false).action
    = .dispatched

/-- Number of draws in `[0, RAND_MAX]` that are admitted: the admission
probability times `rmax + 1`. -/
def admitCount (rate speed : ℚ) (lastAccept now : ℤ) (rmax : ℤ) : ℕ :=
  ((Finset.Icc (0 : ℤ) rmax).filter
    (fun d => rateAdmits rate speed lastAccept now d rmax = true)).card


/- ------------------------------------------------------------------
   Round-robin dispatch: `dispatchSocket` (AsyncServerSocket.cpp lines
   1159-1226) and `dispatchError` (lines 1228-1261).

   Both record `startingIndex = callbackIndex_`, obtain the current entry
   via `nextCallback` and then loop: a failed `tryPutMessage` advances to
   the next entry, and finding the cursor back at `startingIndex` means
   every queue was tried and found full.
   ------------------------------------------------------------------ -/

/-- Modelled from the spec: `nextCallback` is defined in
AsyncServerSocket.h, which is not part of the staged sources; the spec
states it "advances cursor modulo table size; callers obtain the current
entry and then the cursor advances".  This is the cursor advance for a
table of size `s`. -/
def advanceCursor (s cur : ℕ) : ℕ := if s ≤ cur + 1 then 0 else cur + 1

/-- One entry of `callbacks_` as seen by the dispatch loops: whether the
callback runs on a remote consumer (non-null, non-primary EventBase) and
whether that consumer's NotifyQueue is currently full (i.e.
`tryPutMessage` with cap `maxNumMsgsInQueue_` fails). -/
structure DispatchEntry where
  remote : Bool
  full : Bool
deriving DecidableEq, Repr

/-- Externally observable calls made by the dispatch routines. -/
inductive DispEvent where
  | inlineAccepted (idx : ℕ)
  | obsEnqueued (idx : ℕ)
  | closedSocket
  | obsDropped
  | acceptErrorInline (idx : ℕ)
  | enqueuedError (idx : ℕ)
deriving DecidableEq, Repr

/-- How `dispatchSocket` ends. -/
inductive DispOutcome where
  | deliveredInline (idx : ℕ)
  | enqueued (idx : ℕ)
  | droppedAll
  | stuck
deriving DecidableEq, Repr

/-- Result of `dispatchSocket`: outcome, final `acceptRate_`, final
`numDroppedConnections_` and the emitted calls. -/
structure DispResult where
  outcome : DispOutcome
  rate : ℚ
  dropped : ℕ
  events : List DispEvent
deriving DecidableEq, Repr

/-- The `while (true)` loop of `dispatchSocket`: try the current entry's
queue; on failure multiply `acceptRate_` by `1 - 0.1` when
`acceptRateAdjustSpeed_ > 0`, and if `callbackIndex_` is back at
`startingIndex` close the socket, bump the dropped-count and notify the
observer, else advance via `nextCallback` and retry.  `fuel` bounds the
recursion; the callers supply enough for a full wrap. -/
def dispatchLoop (entries : List DispatchEntry) (speed : ℚ)
    (startingIndex : ℕ) (hasObserver : Bool) :
    ℕ → ℕ → ℕ → ℚ → ℕ → DispResult
  | 0, _, _, rate, dropped => ⟨.stuck, rate, dropped, []⟩
  | fuel + 1, idx, cur, rate, dropped =>
    if (entries.getD idx ⟨true, true⟩).full = false then
      ⟨.enqueued idx, rate, dropped,
        if hasObserver then [.obsEnqueued idx] else []⟩
    else
      let rate1 := if 0 < speed then rate * (1 - 1/10) else rate
      if cur = startingIndex then
        ⟨.droppedAll, rate1, dropped + 1,
          .closedSocket :: (if hasObserver then [.obsDropped] else [])⟩
      else
        dispatchLoop entries speed startingIndex hasObserver fuel cur
          (advanceCursor entries.length cur) rate1 dropped

/-- `dispatchSocket`: record `startingIndex`, fetch the entry under the
cursor via `nextCallback` (which advances the cursor), deliver inline when
its EventBase is null or primary, and otherwise enter the enqueue loop. -/
def dispatchSocket (entries : List DispatchEntry) (speed : ℚ)
    (cursor : ℕ) (rate : ℚ) (dropped : ℕ) (hasObserver : Bool) : DispResult :=
  if (entries.getD cursor ⟨true, true⟩).remote = false then
    ⟨.deliveredInline cursor, rate, dropped, [.inlineAccepted cursor]⟩
  else
    dispatchLoop entries speed cursor hasObserver entries.length cursor
      (advanceCursor entries.length cursor) rate dropped

/-- How `dispatchError` ends. -/
inductive ErrOutcome where
  | deliveredInline (idx : ℕ)
  | enqueued (idx : ℕ)
  | droppedError
  | stuck
deriving DecidableEq, Repr

/-- Result of `dispatchError`: outcome, final `numDroppedConnections_`
(which `dispatchError` never touches) and the emitted calls. -/
structure ErrResult where
  outcome : ErrOutcome
  dropped : ℕ
  events : List DispEvent
deriving DecidableEq, Repr

/-- The `while (true)` loop of `dispatchError`: the inline short-circuit
runs `acceptError` directly; otherwise try the consumer's queue; when the
cursor is back at `startingIndex` every queue was full and the function
just returns (rate-limited log only — no observer call, no drop count). -/
def dispatchErrorLoop (entries : List DispatchEntry) (startingIndex : ℕ) :
    ℕ → ℕ → ℕ → ℕ → ErrResult
  | 0, _, _, dropped => ⟨.stuck, dropped, []⟩
  | fuel + 1, idx, cur, dropped =>
    if (entries.getD idx ⟨true, true⟩).remote = false then
      ⟨.deliveredInline idx, dropped, [.acceptErrorInline idx]⟩
    else if (entries.getD idx ⟨true, true⟩).full = false then
      ⟨.enqueued idx, dropped, [.enqueuedError idx]⟩
    else if cur = startingIndex then
      ⟨.droppedError, dropped, []⟩
    else
      dispatchErrorLoop entries startingIndex fuel cur
        (advanceCursor entries.length cur) dropped

/-- `dispatchError`: record `startingIndex`, fetch the current entry via
`nextCallback`, and run the error loop. -/
def dispatchError (entries : List DispatchEntry) (cursor dropped : ℕ) :
    ErrResult :=
  dispatchErrorLoop entries cursor entries.length cursor
    (advanceCursor entries.length cursor) dropped

/-- Steps of the round-robin cursor from `cur` until it next reaches
`si`, in a table of size `s`. -/
def distTo (s si cur : ℕ) : ℕ := if cur ≤ si then si - cur else s + si - cur


/- ------------------------------------------------------------------
   `stopAccepting` (AsyncServerSocket.cpp lines 179-234).

   The socket loop is

     for (; !sockets_.empty(); sockets_.pop_back()) {
       auto& handler = sockets_.back();
       handler.unregisterHandler();
       if (shutdownSocketSet) shutdownSocketSet->close(...);
       else if (shutdownFlags >= 0) { shutdownNoInt(...); pendingCloseSockets_.push_back(...); }
       else closeNoInt(...);
     }

   so it processes the back of `sockets_` first.  Afterwards the backoff
   timer is deleted, `callbacks_` is swapped out, the NAPI map cleared,
   `localCallbackIndex_` reset, and each saved callback either has its
   RemoteAcceptor stopped or its `acceptStopped()` invoked inline.
   ------------------------------------------------------------------ -/

/-- Where a listening descriptor is routed at stop. -/
inductive CloseRoute where
  | shutdownSet
  | deferred
  | immediate
deriving DecidableEq, Repr

/-- Routing decision of the socket loop: ShutdownSocketSet when installed,
else shutdown-and-defer for `shutdownFlags ≥ 0`, else immediate close. -/
def closeRouteOf (hasSSS : Bool) (flags : ℤ) : CloseRoute :=
  if hasSSS then .shutdownSet else if 0 ≤ flags then .deferred else .immediate

/-- Order in which the socket loop of `stopAccepting` processes the
`sockets_` vector: repeatedly take the back and pop it. -/
def stopProcessOrder (l : List ℕ) : List ℕ :=
  if h : l = [] then []
  else l.getLast h :: stopProcessOrder l.dropLast
termination_by l.length
decreasing_by
  simp only [List.length_dropLast]
  have : l ≠ [] := h
  have : 0 < l.length := List.length_pos.mpr this
  omega

/-- An accept callback entry as relevant to teardown: its id and whether
it runs on a RemoteAcceptor (remote consumer). -/
structure CallbackEntry where
  cb : ℕ
  remote : Bool
deriving DecidableEq, Repr

/-- Listener state mutated by `stopAccepting`. -/
structure ListenerStopState where
  accepting : Bool
  sockets : List ℕ
  pendingClose : List ℕ
  hasBackoffTimer : Bool
  callbacks : List CallbackEntry
  napiMap : List (ℤ × ℕ)
  localCallbackIndex : ℤ
deriving DecidableEq, Repr

/-- Externally observable calls made by `stopAccepting`. -/
inductive StopEv where
  | unregistered (s : ℕ)
  | closedViaShutdownSet (s : ℕ)
  | shutdownDeferred (s : ℕ)
  | closedImmediate (s : ℕ)
  | remoteStop (cb : ℕ)
  | acceptStopped (cb : ℕ)
deriving DecidableEq, Repr

/-- The calls the socket loop makes for one descriptor. -/
def stopSocketEv (hasSSS : Bool) (flags : ℤ) (s : ℕ) : List StopEv :=
  .unregistered s ::
    (match closeRouteOf hasSSS flags with
     | .shutdownSet => [.closedViaShutdownSet s]
     | .deferred => [.shutdownDeferred s]
     | .immediate => [.closedImmediate s])

/-- `stopAccepting`: clear `accepting_`, process every socket from the
back (unregister + route its close), delete the backoff timer, swap out
`callbacks_`, clear the NAPI map, reset `localCallbackIndex_`, then stop
each saved callback (RemoteAcceptor stop when remote, inline
`acceptStopped` otherwise).  Returns the new state and the emitted calls. -/
def stopAccepting (hasSSS : Bool) (flags : ℤ) (L : ListenerStopState) :
    ListenerStopState × List StopEv :=
  let socketEvents := (stopProcessOrder L.sockets).flatMap (stopSocketEv hasSSS flags)
  let pendingClose1 := L.pendingClose ++
    (if hasSSS = false ∧ 0 ≤ flags then stopProcessOrder L.sockets else [])
  let cbEvents := L.callbacks.map
    (fun c => if c.remote then StopEv.remoteStop c.cb else StopEv.acceptStopped c.cb)
  (⟨false, [], pendingClose1, false, [], [], -1⟩, socketEvents ++ cbEvents)

/-- The descriptor of an `unregistered` event, if any. -/
def unregisteredSocketOf : StopEv → Option ℕ
  | .unregistered s => some s
  | _ => none


/- ------------------------------------------------------------------
   `addAcceptCallback` (AsyncServerSocket.cpp lines 641-703).

   Order of mutations in the code:
     1. `callbacks_.emplace_back(callback, eventBase)`;
     2. if `eventBase` is non-null and its backend has a NAPI id,
        `napiIdToCallback_.emplace(napiId, ...)` — a map emplace, which
        inserts only when the key is absent;
     3. if `eventBase` is null: run inline, `acceptStarted`, return;
     4. otherwise construct the RemoteAcceptor and `start` it inside a
        try block; on any exception `callbacks_.pop_back()`, delete the
        acceptor and rethrow — the NAPI-map entry of step 2 is NOT
        removed;
     5. on success, set the entry's consumer, update the NAPI-map entry's
        consumer, and record `localCallbackIndex_` if this entry's
        EventBase is the primary one and none was recorded yet.
   ------------------------------------------------------------------ -/

/-- The Listener dispatch state mutated by `addAcceptCallback`:
`callbacks_` (callback ids in table order), `napiIdToCallback_` (as an
association list) and `localCallbackIndex_`. -/
structure DispatchState where
  callbacks : List ℕ
  napiMap : List (ℤ × ℕ)
  localCallbackIndex : ℤ
deriving DecidableEq, Repr

/-- Whether the NAPI map already holds a key (`map::emplace` inserts only
absent keys). -/
def napiContains (m : List (ℤ × ℕ)) (k : ℤ) : Bool :=
  m.any (fun p => p.1 = k)

/-- `addAcceptCallback` restricted to its dispatch-state mutations.
`napiId` is what `eventBase->getBackend()->getNapiId()` returns (−1 when
unavailable), `setupThrows` says whether RemoteAcceptor construction or
start throws.  Returns the state after the call and whether it threw. -/
def addAcceptCallback (st : DispatchState) (cb : ℕ)
    (hasEventBase eventBaseIsPrimary : Bool) (napiId : ℤ)
    (setupThrows : Bool) : DispatchState × Bool :=
  let st1 := { st with callbacks := st.callbacks ++ [cb] }
  let st2 :=
    if hasEventBase ∧ napiId ≠ -1 ∧ napiContains st1.napiMap napiId = false then
      { st1 with napiMap := st1.napiMap ++ [(napiId, cb)] }
    else st1
  if hasEventBase = false then (st2, false)
  else if setupThrows then
    ({ st2 with callbacks := st2.callbacks.dropLast }, true)
  else
    let st3 :=
      if st2.localCallbackIndex < 0 ∧ eventBaseIsPrimary then
        { st2 with localCallbackIndex := (st2.callbacks.length : ℤ) - 1 }
      else st2
    (st3, false)


/- ------------------------------------------------------------------
   The Listener's accepting discipline: `startAccepting` (lines
   785-802), `pauseAccepting` (804-817), `stopAccepting` (179-234),
   `addAcceptCallback` (641-703), `removeAcceptCallback` (705-783),
   `enterBackoff` (1263-1310) and `backoffTimeoutExpired` (1312-1346)
   of AsyncServerSocket.cpp, restricted to the four observables of the
   accepting invariant: `accepting_` (desired state), the size of
   `callbacks_`, whether the ListenHandles are registered for READ, and
   whether the backoff timer is armed.
   ------------------------------------------------------------------ -/

/-- Accepting-discipline state of the Listener. -/
structure AccState where
  accepting : Bool
  numCallbacks : ℕ
  registered : Bool
  backoffArmed : Bool
deriving DecidableEq, Repr

/-- `startAccepting`: set `accepting_`; with no callbacks, wait; else
register every handler for READ|PERSIST. -/
def startAccepting (s : AccState) : AccState :=
  if s.numCallbacks = 0 then { s with accepting := true }
  else { s with accepting := true, registered := true }

/-- `pauseAccepting`: clear `accepting_`, unregister every handler, and
cancel the backoff timeout if armed. -/
def pauseAccepting (s : AccState) : AccState :=
  { s with accepting := false, registered := false, backoffArmed := false }

/-- `stopAccepting` as seen by the accepting discipline: clear
`accepting_`, unregister and close every socket, delete the backoff
timer, swap out every callback. -/
def stopAcceptingAcc (_ : AccState) : AccState :=
  { accepting := false, numCallbacks := 0, registered := false
    backoffArmed := false }

/-- `addAcceptCallback`: append the entry; when this was the first
callback and `accepting_` is set, `SCOPE_SUCCESS` runs `startAccepting`. -/
def addAcceptCallbackAcc (s : AccState) : AccState :=
  let runStartAccepting := s.accepting = true ∧ s.numCallbacks = 0
  let s1 := { s with numCallbacks := s.numCallbacks + 1 }
  if runStartAccepting then startAccepting s1 else s1

/-- `removeAcceptCallback`: with no matching entry the call throws and
changes nothing; else remove the entry and, when `accepting_` is set and
the table is now empty, unregister every handler. -/
def removeAcceptCallbackAcc (s : AccState) : AccState :=
  if s.numCallbacks = 0 then s
  else
    let s1 := { s with numCallbacks := s.numCallbacks - 1 }
    if s1.accepting = true ∧ s1.numCallbacks = 0 then
      { s1 with registered := false }
    else s1

/-- `enterBackoff` (successful path): schedule the 1 s timer, unregister
every handler, and leave `accepting_` untouched — it tracks the desired
state.  Reached only from `handlerReady`, i.e. while registered. -/
def enterBackoffAcc (s : AccState) : AccState :=
  if s.registered = true then
    { s with registered := false, backoffArmed := true }
  else s

/-- `backoffTimeoutExpired`: the timer is no longer armed; with all
callbacks removed nothing is re-registered, else every handler is
registered again. -/
def backoffExpiredAcc (s : AccState) : AccState :=
  if s.backoffArmed = true then
    if s.numCallbacks = 0 then { s with backoffArmed := false }
    else { s with backoffArmed := false, registered := true }
  else s

/-- The public and internal operations driving the accepting discipline. -/
inductive AccOp where
  | start
  | pause
  | stop
  | add
  | remove
  | backoff
  | expire
deriving DecidableEq, Repr

/-- Apply one operation. -/
def applyAccOp (s : AccState) (op : AccOp) : AccState :=
  match op with
  | .start => startAccepting s
  | .pause => pauseAccepting s
  | .stop => stopAcceptingAcc s
  | .add => addAcceptCallbackAcc s
  | .remove => removeAcceptCallbackAcc s
  | .backoff => enterBackoffAcc s
  | .expire => backoffExpiredAcc s

/-- Run a sequence of operations. -/
def runAccOps (s : AccState) (ops : List AccOp) : AccState :=
  ops.foldl applyAccOp s

/-- A freshly constructed Listener: not accepting, no callbacks, nothing
registered, no backoff. -/
def initAccState : AccState :=
  ⟨false, 0, false, false⟩

/-- The spec's accepting invariant, plus the auxiliary fact that an armed
backoff implies desired-accepting. -/
def accInv (s : AccState) : Prop :=
  (s.registered = true ↔
    (s.accepting = true ∧ s.numCallbacks ≠ 0 ∧ s.backoffArmed = false)) ∧
  (s.backoffArmed = true → s.accepting = true)

/-- Whether a run never calls `start_accepting`, nor adds a callback,
while the backoff timer is armed (such a call re-registers READ without
cancelling the timer). -/
def noReRegisterDuringBackoff : AccState → List AccOp → Bool
  | _, [] => true
  | s, op :: ops =>
    (!s.backoffArmed || (!(op == AccOp.start) && !(op == AccOp.add))) &&
      noReRegisterDuringBackoff (applyAccOp s op) ops

section ScratchTests

example : removeFixCursor 3 2 1 = 1 := by decide
example : removeFixCursor 3 2 2 = 0 := by decide
example : removeFixCursor 3 1 2 = 1 := by decide
example :
    (runNewConnMessage ⟨7, 50, 0⟩ 100 true).droppedReasonMs = some 50 := by
  decide

example :
    (handlerReadyIter ⟨1/2, 0, 0, 0⟩ (.err EAGAIN) 10 6 10 false).action =
      .continueLoop := by norm_num [handlerReadyIter, handlerReadyTail, EAGAIN]

example :
    (handlerReadyIter ⟨1/2, 0, 0, 0⟩ (.err EAGAIN) 10 4 10 false).action =
      .returnNow := by norm_num [handlerReadyIter, handlerReadyTail, EAGAIN]

example :
    (handlerReadyIter ⟨1, 0, 0, 0⟩ (.ok 5) 10 4 10 true).events =
      [.obsAccepted 5, .dispatchSocketCall 5] := by
  norm_num [handlerReadyIter, handlerReadyTail]

example :
    dispatchSocket [⟨true, true⟩, ⟨true, true⟩] 1 0 (1/2) 0 true =
      ⟨.droppedAll, (1/2) * (1 - 1/10) * (1 - 1/10), 1,
        [.closedSocket, .obsDropped]⟩ := by
  norm_num [dispatchSocket, dispatchLoop, advanceCursor]

example :
    dispatchSocket [⟨true, true⟩, ⟨true, false⟩] 1 0 (1/2) 0 true =
      ⟨.enqueued 1, (1/2) * (1 - 1/10), 0, [.obsEnqueued 1]⟩ := by
  norm_num [dispatchSocket, dispatchLoop, advanceCursor]

example :
    dispatchError [⟨true, true⟩, ⟨true, true⟩] 0 5 =
      ⟨.droppedError, 5, []⟩ := by
  norm_num [dispatchError, dispatchErrorLoop, advanceCursor]

example :
    dispatchError [⟨true, true⟩, ⟨false, true⟩] 0 5 =
      ⟨.deliveredInline 1, 5, [.acceptErrorInline 1]⟩ := by
  norm_num [dispatchError, dispatchErrorLoop, advanceCursor]

end ScratchTests

/- ==================================================================
   Claims
   ================================================================== -/

/-- C5: after `removeAcceptCallback` erases index `n < s` from a table of
size `s ≥ 1` with cursor `c < s`, the cursor equals `c - 1` when `n < c`,
`0` when `n ≥ c` and `c ≥ s - 1`, and `c` otherwise; and whenever the
shrunken table is non-empty the cursor is a valid index into it. -/
theorem removeAcceptCallback_cursor_fix (s c n : ℕ)
    (hs : 1 ≤ s) (hc : c < s) (hn : n < s) :
    (removeFixCursor s c n =
        if n < c then c - 1 else if s - 1 ≤ c then 0 else c) ∧
      (1 ≤ s - 1 → removeFixCursor s c n < s - 1) := by
  refine ⟨rfl, ?_⟩
  intro h1
  unfold removeFixCursor
  split_ifs <;> omega

/-- Witness for C5 at `s = 3`, `c = 2`, `n = 1`. -/
theorem removeAcceptCallback_cursor_fix_witness :
    (removeFixCursor 3 2 1 =
        if 1 < 2 then 2 - 1 else if 3 - 1 ≤ 2 then 0 else 2) ∧
      (1 ≤ 3 - 1 → removeFixCursor 3 2 1 < 3 - 1) :=
  removeAcceptCallback_cursor_fix 3 2 1 (by decide) (by decide) (by decide)

/-- C1 counterexample: with `queue_timeout = 50 ms`, a connection enqueued
at time 0 and executed at time 100 (deadline 50 passed) is dropped, but the
reason string reports 50 ms — the configured timeout (`deadline -
timeBeforeEnqueue`) — not the measured queue time `100 - 0 = 100` ms the
claim requires. -/
theorem newConnMessage_reports_config_not_measured :
    (runNewConnMessage ⟨7, 50, 0⟩ 100 true).status = .DISCARD ∧
      (runNewConnMessage ⟨7, 50, 0⟩ 100 true).closedFd = some 7 ∧
      (runNewConnMessage ⟨7, 50, 0⟩ 100 true).droppedReasonMs = some 50 ∧
      ¬(runNewConnMessage ⟨7, 50, 0⟩ 100 true).droppedReasonMs =
          some (100 - 0) := by
  refine ⟨rfl, rfl, rfl, ?_⟩
  intro h
  simp [runNewConnMessage, NewConnMessage.isExpired] at h

/-- C1 amended: a Connection message whose deadline is nonzero and has
passed at execution time closes the descriptor, returns DISCARD without
calling `connectionAccepted`, and (when an observer is installed) invokes
`onConnectionDropped` with the configured queue timeout
`deadline - timeBeforeEnqueue` in milliseconds in the reason string. -/
theorem newConnMessage_deadline_drop (m : NewConnMessage) (now : ℤ)
    (hexp : m.isExpired now = true) :
    (runNewConnMessage m now true).status = .DISCARD ∧
      (runNewConnMessage m now true).closedFd = some m.fd ∧
      (runNewConnMessage m now true).connectionAccepted = false ∧
      (runNewConnMessage m now true).droppedReasonMs =
        some (m.deadline - m.timeBeforeEnqueue) := by
  simp [runNewConnMessage, hexp]

/-- Witness for C1's amended theorem at `fd = 7`, `deadline = 50`,
enqueue time 0, execution time 100. -/
theorem newConnMessage_deadline_drop_witness :
    (runNewConnMessage ⟨7, 50, 0⟩ 100 true).status = .DISCARD ∧
      (runNewConnMessage ⟨7, 50, 0⟩ 100 true).closedFd = some 7 ∧
      (runNewConnMessage ⟨7, 50, 0⟩ 100 true).connectionAccepted = false ∧
      (runNewConnMessage ⟨7, 50, 0⟩ 100 true).droppedReasonMs =
        some (50 - 0) :=
  newConnMessage_deadline_drop ⟨7, 50, 0⟩ 100 (by decide)

/-- C2 counterexample: with `acceptRate_ = 1/2`, `adjust_speed = 0`,
`lastAccept = 0`, an accept failing with EAGAIN at `now = 10` and an
unlucky draw (`6 > (1/2)·10`) does NOT return immediately: the iteration
takes the rate-limiter branch first, increments the dropped-count, updates
the last-accept timestamp to 10 and `continue`s the loop — so the
rate-limiter state is updated and a probabilistic reject is evaluated on a
failed accept, contrary to the claim. -/
theorem handlerReady_failure_not_before_rateLimiter :
    (handlerReadyIter ⟨1/2, 0, 0, 0⟩ (.err EAGAIN) 10 6 10 false).action =
        .continueLoop ∧
      (handlerReadyIter ⟨1/2, 0, 0, 0⟩ (.err EAGAIN) 10 6 10 false).st.dropped
        = 1 ∧
      (handlerReadyIter ⟨1/2, 0, 0, 0⟩ (.err EAGAIN) 10 6 10 false).st.lastAccept
        = 10 ∧
      ¬(handlerReadyIter ⟨1/2, 0, 0, 0⟩ (.err EAGAIN) 10 6 10 false).action =
          .returnNow := by
  norm_num [handlerReadyIter, handlerReadyTail, EAGAIN]
  decide

set_option maxHeartbeats 1600000 in
/-- C2 amended: the RateLimiter step precedes accept-failure handling.
On every failed accept the last-accept timestamp is updated to `now`;
when the rate is ≥ 1 the rate and dropped-count are untouched and EAGAIN
returns immediately with no calls; when the rate is < 1 the rate update
and (unless clamped) the probabilistic draw are evaluated even though the
accept failed: a firing reject increments the dropped-count and continues
the loop without running the errno handling, and only a non-firing draw
lets EAGAIN return. -/
theorem handlerReady_rateLimiter_precedes_failure
    (st : RLState) (e : ℕ) (now draw rmax : ℤ) (obs : Bool) :
    (handlerReadyIter st (.err e) now draw rmax obs).st.lastAccept = now ∧
      (¬st.rate < 1 →
        (handlerReadyIter st (.err e) now draw rmax obs).st.rate = st.rate ∧
          (handlerReadyIter st (.err e) now draw rmax obs).st.dropped =
            st.dropped ∧
          (e = EAGAIN →
            (handlerReadyIter st (.err e) now draw rmax obs).action =
                .returnNow ∧
              (handlerReadyIter st (.err e) now draw rmax obs).events = [])) ∧
      (st.rate < 1 →
        (1 ≤ st.rate * (1 + st.speed * ((timeSinceLastAccept now st.lastAccept : ℤ) : ℚ)) →
          (handlerReadyIter st (.err e) now draw rmax obs).st.rate = 1 ∧
            (handlerReadyIter st (.err e) now draw rmax obs).st.dropped =
              st.dropped) ∧
        (st.rate * (1 + st.speed * ((timeSinceLastAccept now st.lastAccept : ℤ) : ℚ)) < 1 →
          (handlerReadyIter st (.err e) now draw rmax obs).st.rate =
              st.rate * (1 + st.speed * ((timeSinceLastAccept now st.lastAccept : ℤ) : ℚ)) ∧
            ((draw : ℚ) >
                st.rate * (1 + st.speed * ((timeSinceLastAccept now st.lastAccept : ℤ) : ℚ))
                  * (rmax : ℚ) →
              (handlerReadyIter st (.err e) now draw rmax obs).action =
                  .continueLoop ∧
                (handlerReadyIter st (.err e) now draw rmax obs).st.dropped =
                  st.dropped + 1 ∧
                (handlerReadyIter st (.err e) now draw rmax obs).events = []) ∧
            (¬(draw : ℚ) >
                st.rate * (1 + st.speed * ((timeSinceLastAccept now st.lastAccept : ℤ) : ℚ))
                  * (rmax : ℚ) →
              (handlerReadyIter st (.err e) now draw rmax obs).st.dropped =
                  st.dropped ∧
                (e = EAGAIN →
                  (handlerReadyIter st (.err e) now draw rmax obs).action =
                      .returnNow ∧
                    (handlerReadyIter st (.err e) now draw rmax obs).events =
                      [])))) := by
  simp only [handlerReadyIter, handlerReadyTail]
  split_ifs <;> simp_all

/-- Helper: with `rate < 1`, a successful accept is admitted exactly when
the updated rate got clamped at 1 or the draw is at most the updated rate
times RAND_MAX. -/
theorem rateAdmits_eq_true_iff (rate speed : ℚ) (last now draw rmax : ℤ)
    (hr1 : rate < 1) :
    rateAdmits rate speed last now draw rmax = true ↔
      (1 ≤ rate * (1 + speed * ((timeSinceLastAccept now last : ℤ) : ℚ)) ∨
        (draw : ℚ) ≤
          rate * (1 + speed * ((timeSinceLastAccept now last : ℤ) : ℚ)) *
            (rmax : ℚ)) := by
  by_cases h2 :
    1 ≤ rate * (1 + speed * ((timeSinceLastAccept now last : ℤ) : ℚ))
  · simp [rateAdmits, handlerReadyIter, handlerReadyTail, hr1, h2]
  · by_cases h3 :
      (draw : ℚ) ≤
        rate * (1 + speed * ((timeSinceLastAccept now last : ℤ) : ℚ)) *
          (rmax : ℚ)
    · simp [rateAdmits, handlerReadyIter, handlerReadyTail, hr1, h2, h3,
        not_lt.mpr h3]
    · simp [rateAdmits, handlerReadyIter, handlerReadyTail, hr1, h2, h3,
        not_le.mp h3]

/-- Helper: pointwise monotonicity of admission in the quiescent interval:
a draw admitted at `now1` is still admitted at any later `now2`. -/
theorem rateAdmits_mono (rate speed : ℚ) (last now1 now2 draw rmax : ℤ)
    (hr0 : 0 ≤ rate) (hr1 : rate < 1) (hsp : 0 ≤ speed) (hrm : 0 ≤ rmax)
    (hnow : now1 ≤ now2) :
    rateAdmits rate speed last now1 draw rmax = true →
      rateAdmits rate speed last now2 draw rmax = true := by
  rw [rateAdmits_eq_true_iff rate speed last now1 draw rmax hr1,
    rateAdmits_eq_true_iff rate speed last now2 draw rmax hr1]
  have hdt : ((timeSinceLastAccept now1 last : ℤ) : ℚ) ≤
      ((timeSinceLastAccept now2 last : ℤ) : ℚ) := by
    have : timeSinceLastAccept now1 last ≤ timeSinceLastAccept now2 last :=
      max_le_max le_rfl (sub_le_sub_right hnow last)
    exact_mod_cast this
  have hr : rate * (1 + speed * ((timeSinceLastAccept now1 last : ℤ) : ℚ)) ≤
      rate * (1 + speed * ((timeSinceLastAccept now2 last : ℤ) : ℚ)) := by
    apply mul_le_mul_of_nonneg_left _ hr0
    have := mul_le_mul_of_nonneg_left hdt hsp
    linarith
  rintro (h | h)
  · left; linarith
  · right
    calc (draw : ℚ) ≤ _ := h
      _ ≤ _ := mul_le_mul_of_nonneg_right hr (by exact_mod_cast hrm)

/-- Helper: with `rate < 1`, the rate after a successful accept is
`min 1 (rate · (1 + speed · Δt))` with `Δt = max 0 (now - last)`. -/
theorem hrIter_ok_rate (rate speed : ℚ) (last now draw rmax : ℤ)
    (dropped fd : ℕ) (obs : Bool) (hr1 : rate < 1) :
    (handlerReadyIter ⟨rate, speed, last, dropped⟩ (.ok fd) now draw rmax
        obs).st.rate =
      min 1 (rate * (1 + speed * ((timeSinceLastAccept now last : ℤ) : ℚ))) := by
  by_cases h2 :
    1 ≤ rate * (1 + speed * ((timeSinceLastAccept now last : ℤ) : ℚ))
  · simp [handlerReadyIter, handlerReadyTail, hr1, h2, min_eq_left h2]
  · by_cases h4 :
      rate * (1 + speed * ((timeSinceLastAccept now last : ℤ) : ℚ)) *
          (rmax : ℚ) <
        (draw : ℚ)
    · simp [handlerReadyIter, handlerReadyTail, hr1, h2, h4,
        min_eq_right (le_of_not_le h2)]
    · simp [handlerReadyIter, handlerReadyTail, hr1, h2, h4,
        min_eq_right (le_of_not_le h2)]

/-- C7: on each accept with `rate < 1`, the rate becomes
`min 1 (rate · (1 + adjust_speed · Δt))` with `Δt = max(0, now - last)`;
the connection is rejected exactly when the updated (unclamped) rate is
below 1 and the uniform integer draw exceeds `rate · RAND_MAX`; and for
`adjust_speed > 0` the number of admitted draws in `[0, RAND_MAX]` (the
admission probability) is non-decreasing in the quiescent interval. -/
theorem handlerReady_rate_recovery_monotone
    (rate speed : ℚ) (last now1 now2 draw rmax : ℤ)
    (hr0 : 0 < rate) (hr1 : rate < 1) (hsp : 0 < speed) (hrm : 0 ≤ rmax)
    (hnow : now1 ≤ now2) :
    (∀ (fd dropped : ℕ) (now : ℤ) (obs : Bool),
        (handlerReadyIter ⟨rate, speed, last, dropped⟩ (.ok fd) now draw rmax
            obs).st.rate =
          min 1 (rate * (1 + speed * ((timeSinceLastAccept now last : ℤ) : ℚ)))) ∧
      (∀ now : ℤ,
        rateAdmits rate speed last now draw rmax = false ↔
          (rate * (1 + speed * ((timeSinceLastAccept now last : ℤ) : ℚ)) < 1 ∧
            rate * (1 + speed * ((timeSinceLastAccept now last : ℤ) : ℚ)) *
                (rmax : ℚ) <
              (draw : ℚ))) ∧
      admitCount rate speed last now1 rmax ≤
        admitCount rate speed last now2 rmax := by
  refine ⟨fun fd dropped now obs =>
    hrIter_ok_rate rate speed last now draw rmax dropped fd obs hr1,
    fun now => ?_, ?_⟩
  · rw [← Bool.not_eq_true,
      rateAdmits_eq_true_iff rate speed last now draw rmax hr1, not_or, not_le,
      not_le]
  · apply Finset.card_le_card
    intro d hd
    simp only [Finset.mem_filter] at hd ⊢
    exact ⟨hd.1,
      rateAdmits_mono rate speed last now1 now2 d rmax hr0.le hr1 hsp.le hrm
        hnow hd.2⟩

/-- Witness for C7 at `rate = 1/2`, `speed = 1`, `last = 0`, `now1 = 1`,
`now2 = 2`, `draw = 3`, `RAND_MAX = 10`. -/
theorem handlerReady_rate_recovery_monotone_witness :
    (∀ (fd dropped : ℕ) (now : ℤ) (obs : Bool),
        (handlerReadyIter ⟨1/2, 1, 0, dropped⟩ (.ok fd) now 3 10
            obs).st.rate =
          min 1 ((1/2 : ℚ) * (1 + 1 * ((timeSinceLastAccept now 0 : ℤ) : ℚ)))) ∧
      (∀ now : ℤ,
        rateAdmits (1/2) 1 0 now 3 10 = false ↔
          ((1/2 : ℚ) * (1 + 1 * ((timeSinceLastAccept now 0 : ℤ) : ℚ)) < 1 ∧
            (1/2 : ℚ) * (1 + 1 * ((timeSinceLastAccept now 0 : ℤ) : ℚ)) *
                ((10 : ℤ) : ℚ) <
              ((3 : ℤ) : ℚ))) ∧
      admitCount (1/2) 1 0 1 10 ≤ admitCount (1/2) 1 0 2 10 :=
  handlerReady_rate_recovery_monotone (1/2) 1 0 1 2 3 10 (by norm_num)
    (by norm_num) (by norm_num) (by norm_num) (by norm_num)

/-- Helper: a pointwise Boolean property of the entries holds for any
`getD` lookup when it holds for every member and for the default. -/
theorem dispatchEntry_getD_prop (p : DispatchEntry → Bool)
    (entries : List DispatchEntry) (hall : ∀ e ∈ entries, p e = true)
    (hd : p ⟨true, true⟩ = true) (i : ℕ) :
    p (entries.getD i ⟨true, true⟩) = true := by
  induction entries generalizing i with
  | nil => simpa [List.getD] using hd
  | cons a l ih =>
    cases i with
    | zero => simpa using hall a (List.mem_cons_self a l)
    | succ n =>
      simpa [List.getD_cons_succ] using
        ih (fun e he => hall e (List.mem_cons_of_mem a he)) n

/-- Helper: advancing the cursor keeps it inside the table. -/
theorem advanceCursor_lt (s cur : ℕ) (h : cur < s) : advanceCursor s cur < s := by
  unfold advanceCursor
  split_ifs <;> omega

/-- Helper: with every queue full, the `dispatchSocket` loop runs one
failure iteration per remaining step, multiplies the rate accordingly,
and ends by closing the socket, bumping the dropped-count once and
notifying the observer once. -/
theorem dispatchLoop_all_full (entries : List DispatchEntry) (speed : ℚ)
    (si : ℕ) (obs : Bool) (hall : ∀ e ∈ entries, e.full = true)
    (hsi : si < entries.length) :
    ∀ (fuel idx cur : ℕ) (rate : ℚ) (dropped : ℕ), cur < entries.length →
      fuel = distTo entries.length si cur + 1 →
      dispatchLoop entries speed si obs fuel idx cur rate dropped =
        ⟨.droppedAll,
          if 0 < speed then rate * (1 - 1/10) ^ fuel else rate,
          dropped + 1,
          .closedSocket :: (if obs then [.obsDropped] else [])⟩ := by
  intro fuel
  induction fuel with
  | zero => intro idx cur rate dropped hcur hfuel; omega
  | succ n ih =>
    intro idx cur rate dropped hcur hfuel
    have hf := dispatchEntry_getD_prop (fun e => e.full) entries hall rfl idx
    simp only [dispatchLoop, hf, Bool.true_eq_false, if_false]
    by_cases hcs : cur = si
    · have hn : n = 0 := by
        subst hcs
        simp only [distTo] at hfuel
        split_ifs at hfuel <;> omega
      subst hn
      subst hcs
      simp only [if_pos rfl]
      by_cases hs : 0 < speed <;> simp [hs, pow_one]
    · have hd1 : 1 ≤ distTo entries.length si cur := by
        simp only [distTo] at hfuel ⊢
        split_ifs at hfuel ⊢ <;> omega
      have hcur1 : advanceCursor entries.length cur < entries.length :=
        advanceCursor_lt _ _ hcur
      have hfuel1 :
          n = distTo entries.length si (advanceCursor entries.length cur) + 1 := by
        simp only [distTo, advanceCursor] at hfuel ⊢
        split_ifs at hfuel ⊢ <;> omega
      simp only [if_neg hcs]
      rw [ih _ (advanceCursor entries.length cur) _ dropped hcur1 hfuel1]
      by_cases hs : 0 < speed <;> simp [hs, pow_succ] <;> ring_nf

/-- C6: in `dispatchSocket`, every failed enqueue onto a full queue
multiplies the rate by `1 - 0.1` exactly when the adjust-speed is
positive and advances to the next entry; and when the cursor wraps back
to the starting index with every queue full, the socket is closed, the
dropped-count rises by exactly one, and the observer's
`onConnectionDropped` fires exactly once. -/
theorem dispatchSocket_queue_full_backoff
    (entries : List DispatchEntry) (speed rate : ℚ) (cursor dropped : ℕ)
    (hcur : cursor < entries.length)
    (hrem : ∀ e ∈ entries, e.remote = true) :
    (∀ (fuel idx cur : ℕ) (r : ℚ) (d : ℕ),
        (entries.getD idx ⟨true, true⟩).full = true → ¬cur = cursor →
        dispatchLoop entries speed cursor true (fuel + 1) idx cur r d =
          dispatchLoop entries speed cursor true fuel cur
            (advanceCursor entries.length cur)
            (if 0 < speed then r * (1 - 1/10) else r) d) ∧
      ((∀ e ∈ entries, e.full = true) →
        dispatchSocket entries speed cursor rate dropped true =
          ⟨.droppedAll,
            if 0 < speed then rate * (1 - 1/10) ^ entries.length else rate,
            dropped + 1, [.closedSocket, .obsDropped]⟩ ∧
          (dispatchSocket entries speed cursor rate dropped true).events.count
              .obsDropped = 1) := by
  constructor
  · intro fuel idx cur r d hfull hne
    simp only [dispatchLoop, hfull, Bool.true_eq_false, if_false, if_neg hne]
  · intro hall
    have hr := dispatchEntry_getD_prop (fun e => e.remote) entries hrem rfl cursor
    have hlen : 1 ≤ entries.length := by omega
    have hfuel :
        entries.length =
          distTo entries.length cursor (advanceCursor entries.length cursor) + 1 := by
      simp only [distTo, advanceCursor]
      split_ifs <;> omega
    have hmain :=
      dispatchLoop_all_full entries speed cursor true hall hcur entries.length
        cursor (advanceCursor entries.length cursor) rate dropped
        (advanceCursor_lt _ _ hcur) hfuel
    constructor
    · simp only [dispatchSocket, hr, Bool.true_eq_false, if_false]
      simpa using hmain
    · simp only [dispatchSocket, hr, Bool.true_eq_false, if_false]
      rw [show dispatchLoop entries speed cursor true entries.length cursor
          (advanceCursor entries.length cursor) rate dropped = _ from hmain]
      simp

/-- Helper: with every entry remote and every queue full, the
`dispatchError` loop just returns, touching nothing. -/
theorem dispatchErrorLoop_all_full (entries : List DispatchEntry) (si : ℕ)
    (hrem : ∀ e ∈ entries, e.remote = true)
    (hall : ∀ e ∈ entries, e.full = true) (hsi : si < entries.length) :
    ∀ (fuel idx cur dropped : ℕ), cur < entries.length →
      fuel = distTo entries.length si cur + 1 →
      dispatchErrorLoop entries si fuel idx cur dropped =
        ⟨.droppedError, dropped, []⟩ := by
  intro fuel
  induction fuel with
  | zero => intro idx cur dropped hcur hfuel; omega
  | succ n ih =>
    intro idx cur dropped hcur hfuel
    have hr := dispatchEntry_getD_prop (fun e => e.remote) entries hrem rfl idx
    have hf := dispatchEntry_getD_prop (fun e => e.full) entries hall rfl idx
    simp only [dispatchErrorLoop, hr, hf, Bool.true_eq_false, if_false]
    by_cases hcs : cur = si
    · simp [hcs]
    · have hcur1 : advanceCursor entries.length cur < entries.length :=
        advanceCursor_lt _ _ hcur
      have hfuel1 :
          n = distTo entries.length si (advanceCursor entries.length cur) + 1 := by
        simp only [distTo, advanceCursor] at hfuel ⊢
        split_ifs at hfuel ⊢ <;> omega
      simp only [if_neg hcs]
      exact ih _ (advanceCursor entries.length cur) dropped hcur1 hfuel1

/-- C10: when every registered callback has a remote consumer and every
consumer's queue rejects the Error message, `dispatchError` returns
having delivered the error to no callback, notified no observer and
incremented no dropped-count — the error is dropped with only a
rate-limited log line. -/
theorem dispatchError_all_queues_full
    (entries : List DispatchEntry) (cursor dropped : ℕ)
    (hcur : cursor < entries.length)
    (hrem : ∀ e ∈ entries, e.remote = true)
    (hall : ∀ e ∈ entries, e.full = true) :
    dispatchError entries cursor dropped = ⟨.droppedError, dropped, []⟩ := by
  have hfuel :
      entries.length =
        distTo entries.length cursor (advanceCursor entries.length cursor) + 1 := by
    simp only [distTo, advanceCursor]
    split_ifs <;> omega
  exact dispatchErrorLoop_all_full entries cursor hrem hall hcur entries.length
    cursor (advanceCursor entries.length cursor) dropped
    (advanceCursor_lt _ _ hcur) hfuel

/-- Witness for C6 with two remote entries, both queues full, cursor 0,
`speed = 1`, `rate = 1/2`. -/
theorem dispatchSocket_queue_full_backoff_witness :
    (∀ (fuel idx cur : ℕ) (r : ℚ) (d : ℕ),
        (([⟨true, true⟩, ⟨true, true⟩] :
            List DispatchEntry).getD idx ⟨true, true⟩).full = true →
        ¬cur = 0 →
        dispatchLoop [⟨true, true⟩, ⟨true, true⟩] 1 0 true (fuel + 1) idx cur
            r d =
          dispatchLoop [⟨true, true⟩, ⟨true, true⟩] 1 0 true fuel cur
            (advanceCursor
              ([⟨true, true⟩, ⟨true, true⟩] : List DispatchEntry).length cur)
            (if 0 < (1 : ℚ) then r * (1 - 1/10) else r) d) ∧
      ((∀ e ∈ ([⟨true, true⟩, ⟨true, true⟩] : List DispatchEntry),
          e.full = true) →
        dispatchSocket [⟨true, true⟩, ⟨true, true⟩] 1 0 (1/2) 0 true =
          ⟨.droppedAll,
            if 0 < (1 : ℚ) then
              (1/2 : ℚ) * (1 - 1/10) ^
                ([⟨true, true⟩, ⟨true, true⟩] : List DispatchEntry).length
            else (1/2 : ℚ),
            0 + 1, [.closedSocket, .obsDropped]⟩ ∧
          (dispatchSocket [⟨true, true⟩, ⟨true, true⟩] 1 0 (1/2) 0
              true).events.count .obsDropped = 1) :=
  dispatchSocket_queue_full_backoff [⟨true, true⟩, ⟨true, true⟩] 1 (1/2) 0 0
    (by decide) (by decide)

/-- Witness for C10 with two remote entries, both queues full, cursor 0. -/
theorem dispatchError_all_queues_full_witness :
    dispatchError [⟨true, true⟩, ⟨true, true⟩] 0 5 =
      ⟨.droppedError, 5, []⟩ :=
  dispatchError_all_queues_full [⟨true, true⟩, ⟨true, true⟩] 0 5 (by decide)
    (by decide) (by decide)

/-- Helper: the socket loop of `stopAccepting` processes the descriptors
in exactly reversed vector order. -/
theorem stopProcessOrder_eq_reverse (l : List ℕ) :
    stopProcessOrder l = l.reverse := by
  induction l using List.reverseRecOn with
  | nil => simp [stopProcessOrder]
  | append_singleton l a ih =>
    rw [stopProcessOrder]
    simp only [List.dropLast_concat]
    simp [ih, List.getLast_append]

/-- Helper: extracting the unregistered descriptors from the socket-loop
events recovers the processing order. -/
theorem flatMap_stopSocketEv_filterMap (hasSSS : Bool) (flags : ℤ)
    (l : List ℕ) :
    (l.flatMap (stopSocketEv hasSSS flags)).filterMap unregisteredSocketOf = l := by
  induction l with
  | nil => rfl
  | cons a l ih =>
    simp only [List.flatMap_cons, List.filterMap_append, ih, stopSocketEv]
    cases hc : closeRouteOf hasSSS flags <;>
      simp [unregisteredSocketOf]

/-- Helper: the callback-stop events carry no descriptor. -/
theorem cbEvents_filterMap (cbs : List CallbackEntry) :
    (cbs.map (fun c =>
        if c.remote then StopEv.remoteStop c.cb
        else StopEv.acceptStopped c.cb)).filterMap unregisteredSocketOf = [] := by
  induction cbs with
  | nil => rfl
  | cons c l ih =>
    by_cases hc : c.remote <;> simp [hc, unregisteredSocketOf, ih]

/-- C8: for a Listener owning `n ≥ 2` descriptors, `stopAccepting`
unregisters and routes them in strictly reverse construction order: the
last-created descriptor is processed first and the first-created one
last, each routed to the ShutdownSocketSet, the deferred-close list or
an immediate close. -/
theorem stopAccepting_reverse_close (L : ListenerStopState) (hasSSS : Bool)
    (flags : ℤ) (hlen : 2 ≤ L.sockets.length) :
    ((stopAccepting hasSSS flags L).2.filterMap unregisteredSocketOf =
        L.sockets.reverse) ∧
      ((stopAccepting hasSSS flags L).2.filterMap unregisteredSocketOf).head? =
        L.sockets.getLast? ∧
      ((stopAccepting hasSSS flags L).2.filterMap
            unregisteredSocketOf).getLast? =
        L.sockets.head? := by
  have hmain :
      (stopAccepting hasSSS flags L).2.filterMap unregisteredSocketOf =
        L.sockets.reverse := by
    simp only [stopAccepting, List.filterMap_append,
      flatMap_stopSocketEv_filterMap, cbEvents_filterMap, List.append_nil,
      stopProcessOrder_eq_reverse]
  refine ⟨hmain, ?_, ?_⟩
  · rw [hmain, List.head?_reverse]
  · rw [hmain, List.getLast?_reverse]

/-- Witness for C8 with sockets `[4, 5, 6]`. -/
theorem stopAccepting_reverse_close_witness :
    ((stopAccepting true 0 ⟨true, [4, 5, 6], [], true, [], [], 0⟩).2.filterMap
        unregisteredSocketOf = [6, 5, 4]) ∧
      ((stopAccepting true 0
            ⟨true, [4, 5, 6], [], true, [], [], 0⟩).2.filterMap
          unregisteredSocketOf).head? = ([4, 5, 6] : List ℕ).getLast? ∧
      ((stopAccepting true 0
            ⟨true, [4, 5, 6], [], true, [], [], 0⟩).2.filterMap
          unregisteredSocketOf).getLast? = ([4, 5, 6] : List ℕ).head? :=
  stopAccepting_reverse_close ⟨true, [4, 5, 6], [], true, [], [], 0⟩ true 0
    (by decide)

/-- C9: `stopAccepting` is idempotent: a second call right after a first
emits no further calls (no unregister, close, RemoteAcceptor stop or
`acceptStopped`) and leaves the whole Listener state exactly as the first
call left it. -/
theorem stopAccepting_idempotent (L : ListenerStopState)
    (hasSSS1 hasSSS2 : Bool) (flags1 flags2 : ℤ) :
    (stopAccepting hasSSS2 flags2 (stopAccepting hasSSS1 flags1 L).1).1 =
        (stopAccepting hasSSS1 flags1 L).1 ∧
      (stopAccepting hasSSS2 flags2 (stopAccepting hasSSS1 flags1 L).1).2 =
        [] := by
  have h0 : stopProcessOrder [] = [] := by
    simpa using stopProcessOrder_eq_reverse []
  constructor <;> simp [stopAccepting, h0]

/-- C4 counterexample: from an empty dispatch state, adding callback 7
bound to an EventBase whose NAPI id is 5, with RemoteAcceptor setup
throwing, propagates the error and rolls back the callback table — but
the NAPI map now holds `(5, 7)`, so the dispatch state is NOT exactly as
it was before the call. -/
theorem addAcceptCallback_napi_not_rolled_back :
    (addAcceptCallback ⟨[], [], -1⟩ 7 true false 5 true).2 = true ∧
      (addAcceptCallback ⟨[], [], -1⟩ 7 true false 5 true).1.callbacks = [] ∧
      (addAcceptCallback ⟨[], [], -1⟩ 7 true false 5 true).1.napiMap =
        [(5, 7)] ∧
      ¬(addAcceptCallback ⟨[], [], -1⟩ 7 true false 5 true).1 =
          ⟨[], [], -1⟩ := by
  decide

/-- C4 amended: when RemoteAcceptor construction or start throws,
`addAcceptCallback` propagates the error with the callback table and the
local-callback index exactly as before the call, but the NAPI map keeps
the entry inserted for the failing callback: it equals the old map when
the NAPI id was −1 or already present, and the old map extended by
`(napiId, cb)` otherwise. -/
theorem addAcceptCallback_rollback (st : DispatchState) (cb : ℕ)
    (eventBaseIsPrimary : Bool) (napiId : ℤ) :
    (addAcceptCallback st cb true eventBaseIsPrimary napiId true).2 = true ∧
      (addAcceptCallback st cb true eventBaseIsPrimary napiId
          true).1.callbacks = st.callbacks ∧
      (addAcceptCallback st cb true eventBaseIsPrimary napiId
          true).1.localCallbackIndex = st.localCallbackIndex ∧
      (addAcceptCallback st cb true eventBaseIsPrimary napiId true).1.napiMap =
        (if napiId ≠ -1 ∧ napiContains st.napiMap napiId = false then
          st.napiMap ++ [(napiId, cb)]
        else st.napiMap) := by
  by_cases h : napiId ≠ -1 ∧ napiContains st.napiMap napiId = false <;>
    simp [addAcceptCallback, h, List.dropLast_concat]

/-- Helper: the strengthened invariant is preserved by every operation
that does not re-register during an armed backoff. -/
theorem accInv_step (s : AccState) (op : AccOp) (hI : accInv s)
    (hguard : s.backoffArmed = true → op ≠ AccOp.start ∧ op ≠ AccOp.add) :
    accInv (applyAccOp s op) := by
  obtain ⟨acc, n, reg, arm⟩ := s
  cases op <;>
    cases acc <;> cases reg <;> cases arm <;>
      rcases n with _ | _ | n <;>
        simp_all [applyAccOp, startAccepting, pauseAccepting,
          stopAcceptingAcc, addAcceptCallbackAcc, removeAcceptCallbackAcc,
          enterBackoffAcc, backoffExpiredAcc, accInv]

/-- Helper: the strengthened invariant is preserved by every guarded run. -/
theorem accInv_run (ops : List AccOp) : ∀ s : AccState, accInv s →
    noReRegisterDuringBackoff s ops = true → accInv (runAccOps s ops) := by
  induction ops with
  | nil => intro s h _; exact h
  | cons op ops ih =>
    intro s hI hg
    simp only [noReRegisterDuringBackoff, Bool.and_eq_true] at hg
    simp only [runAccOps, List.foldl_cons]
    refine ih (applyAccOp s op) (accInv_step s op hI ?_) hg.2
    intro harm
    rcases hg with ⟨hg1, _⟩
    rw [harm] at hg1
    simpa using hg1

/-- C3 counterexample: from a fresh Listener, the sequence add-callback,
start-accepting, enter-backoff, start-accepting ends registered for READ
while the backoff timer is still armed — `startAccepting` re-registers
without cancelling the timer — so the accepting invariant's "no backoff
active" clause fails on this reachable state. -/
theorem accepting_invariant_cex :
    (runAccOps initAccState [.add, .start, .backoff, .start]).registered =
        true ∧
      (runAccOps initAccState [.add, .start, .backoff, .start]).backoffArmed =
        true ∧
      ¬((runAccOps initAccState
            [.add, .start, .backoff, .start]).registered = true ↔
        ((runAccOps initAccState
              [.add, .start, .backoff, .start]).accepting = true ∧
          (runAccOps initAccState
              [.add, .start, .backoff, .start]).numCallbacks ≠ 0 ∧
          (runAccOps initAccState
              [.add, .start, .backoff, .start]).backoffArmed = false)) := by
  decide

/-- C3 amended: the accepting invariant — registered for READ iff
desired-accepting, non-empty callback table and no armed backoff — holds
in every state reached from a fresh Listener by operation sequences that
never call `start_accepting` nor add a callback while the backoff timer
is armed (such a call re-registers READ with the timer still armed);
moreover entering backoff unregisters READ, arms the timer, and leaves
desired-accepting untouched. -/
theorem accepting_invariant_guarded (ops : List AccOp)
    (hguard : noReRegisterDuringBackoff initAccState ops = true) :
    ((runAccOps initAccState ops).registered = true ↔
      ((runAccOps initAccState ops).accepting = true ∧
        (runAccOps initAccState ops).numCallbacks ≠ 0 ∧
        (runAccOps initAccState ops).backoffArmed = false)) ∧
      (∀ s : AccState, s.registered = true →
        (enterBackoffAcc s).registered = false ∧
          (enterBackoffAcc s).accepting = s.accepting ∧
          (enterBackoffAcc s).backoffArmed = true) := by
  refine ⟨(accInv_run ops initAccState (by simp [accInv, initAccState]) hguard).1, ?_⟩
  intro s hreg
  simp [enterBackoffAcc, hreg]

/-- Witness for C3's amended theorem: the guarded run add-callback,
start-accepting, enter-backoff, backoff-expiry. -/
theorem accepting_invariant_guarded_witness :
    ((runAccOps initAccState [.add, .start, .backoff, .expire]).registered =
        true ↔
      ((runAccOps initAccState
            [.add, .start, .backoff, .expire]).accepting = true ∧
        (runAccOps initAccState
            [.add, .start, .backoff, .expire]).numCallbacks ≠ 0 ∧
        (runAccOps initAccState
            [.add, .start, .backoff, .expire]).backoffArmed = false)) ∧
      (∀ s : AccState, s.registered = true →
        (enterBackoffAcc s).registered = false ∧
          (enterBackoffAcc s).accepting = s.accepting ∧
          (enterBackoffAcc s).backoffArmed = true) :=
  accepting_invariant_guarded [.add, .start, .backoff, .expire] (by decide)
